import Mathlib

/-!
Shallow embedding of the core logic of the garage Terraform provider:
the bucket-key permission reconciler (src/garage/resource_bucket_key.go)
and the bucket-aliasName dual-mode identity resolver
(src/garage/resource_bucket_alias.go).

Go strings are modelled as lists of characters.  Remote calls are modelled
by explicit response values passed into each operation, and the remote
calls a code path issues are recorded as a trace of actions.
-/

/-- Go strings, modelled as lists of characters. -/
abbrev Str := List Char

/-- Go struct bucketKeyPermissions (resource_bucket_key.go): fields
Owner, Read, Write. -/
structure bucketKeyPermissions where
  owner : Bool
  read : Bool
  write : Bool
deriving DecidableEq

/-- Method (p bucketKeyPermissions) any(): p.Owner || p.Read || p.Write. -/
def bucketKeyPermissions.any (p : bucketKeyPermissions) : Bool :=
  p.owner || p.read || p.write

/-- The zero value of bucketKeyPermissions. -/
def permsZero : bucketKeyPermissions := ⟨false, false, false⟩

/-- SDK struct garage.ApiBucketKeyPerm: pointer fields Read, Write, Owner.
A nil pointer is modelled as none; SetX(true) stores some true. -/
structure ApiBucketKeyPerm where
  read : Option Bool
  write : Option Bool
  owner : Option Bool
deriving DecidableEq

/-- garage.NewApiBucketKeyPerm(): all three pointer fields nil. -/
def newApiBucketKeyPerm : ApiBucketKeyPerm := ⟨none, none, none⟩

/-- hasAnyBucketKeyPerm (resource_bucket_key.go):
(perm.Read != nil && *perm.Read) || (perm.Write != nil && *perm.Write) ||
(perm.Owner != nil && *perm.Owner).  (The nil-receiver guard is dropped:
every call site passes a struct freshly built by NewApiBucketKeyPerm.) -/
def hasAnyBucketKeyPerm (perm : ApiBucketKeyPerm) : Bool :=
  perm.read.getD false || perm.write.getD false || perm.owner.getD false

/-- One key entry of a bucket info snapshot: the SDK struct
GetBucketInfoKey, whose fields are AccessKeyId, BucketLocalAliases, Name
and Permissions — see the key-list literals the repository's own tests
build (resource_bucket_test.go, bucketInfoPayload; the alias test file,
aliasBucketInfoPayload). -/
structure KeyEntry where
  accessKeyId : Str
  name : Str
  bucketLocalAliases : List Str
  perms : bucketKeyPermissions
deriving DecidableEq

/-- Bucket info snapshot returned by BucketAPI.GetBucketInfo. -/
structure BucketInfo where
  globalAliases : List Str
  keys : List KeyEntry
deriving DecidableEq

/-- Outcome of one Execute() of a GetBucketInfo request, i.e. the Go triple
(info, httpResp, err): whether err was non-nil, the HTTP status code of
httpResp when httpResp was non-nil, and the decoded body when non-nil. -/
structure ExecResp where
  isErr : Bool
  status : Option Nat
  info : Option BucketInfo
deriving DecidableEq

/-- Outcome of one Execute() of a mutation request (allow/deny/add/remove). -/
structure MutResp where
  isErr : Bool
  status : Option Nat
deriving DecidableEq

/-- The remote calls a code path can issue, in order.  addAlias and
removeAlias carry the four arguments of NewAddBucketAliasRequest /
NewRemoveBucketAliasRequest: globalAlias, accessKeyId, localAlias, bucketId. -/
inductive RCall where
| lookup (bucketId : Str)
| allowCall (bucketId keyId : Str) (perm : ApiBucketKeyPerm)
| denyCall (bucketId keyId : Str) (perm : ApiBucketKeyPerm)
| addAlias (globalAlias accessKeyId localAlias bucketId : Str)
| removeAlias (globalAlias accessKeyId localAlias bucketId : Str)
deriving DecidableEq

/-- The result quadruple of fetchBucketKeyState:
(bucketKeyPermissions, keyName, found, diags non-empty). -/
structure FetchOut where
  perms : bucketKeyPermissions
  keyName : Str
  found : Bool
  diags : Bool
deriving DecidableEq

/-- The scan loop of fetchBucketKeyState: the first key entry whose
access-key id equals keyID. -/
def scanKeys (keyID : Str) : List KeyEntry → Option KeyEntry
| [] => none
| k :: ks => if k.accessKeyId = keyID then some k else scanKeys keyID ks

/-- fetchBucketKeyState (resource_bucket_key.go, lines 247-279), as a
function of the GetBucketInfo response: a non-nil err with a 404 response
is "bucket does not exist" (found=false, no error); any other err is a
diagnostic; a nil info is found=false; otherwise the key list is scanned
for keyID. -/
def fetchBucketKeyState (keyID : Str) (resp : ExecResp) : FetchOut :=
  if resp.isErr then
    if resp.status = some 404 then ⟨permsZero, [], false, false⟩
    else ⟨permsZero, [], false, true⟩
  else
    match resp.info with
    | none => ⟨permsZero, [], false, false⟩
    | some info =>
      match scanKeys keyID info.keys with
      | some k => ⟨k.perms, k.name, true, false⟩
      | none => ⟨permsZero, [], false, false⟩

/-- The allow/deny pair built by ensureBucketKeyPermissions (lines 208-230):
starting from NewApiBucketKeyPerm, each flag is set in allow iff desired
and not current, and set in deny iff current and not desired. -/
def ensurePlan (desired current : bucketKeyPermissions) :
    ApiBucketKeyPerm × ApiBucketKeyPerm :=
  (⟨if desired.read && !current.read then some true else newApiBucketKeyPerm.read,
    if desired.write && !current.write then some true else newApiBucketKeyPerm.write,
    if desired.owner && !current.owner then some true else newApiBucketKeyPerm.owner⟩,
   ⟨if !desired.read && current.read then some true else newApiBucketKeyPerm.read,
    if !desired.write && current.write then some true else newApiBucketKeyPerm.write,
    if !desired.owner && current.owner then some true else newApiBucketKeyPerm.owner⟩)

/-- The remote responses one reconciliation run can consume. -/
structure KeyEnv where
  lookupResp : ExecResp
  allowResp : MutResp
  denyResp : MutResp
deriving DecidableEq

/-- The call-issuing tail of ensureBucketKeyPermissions (lines 232-244),
after the lookup succeeded with permission set current: the allow call is
issued iff the allow set is non-empty (applyBucketKeyAllow would also skip
an empty set); on allow success the deny call is issued iff the deny set is
non-empty.  Returns (error present, trace of issued remote calls). -/
def ensureCalls (b k : Str) (desired current : bucketKeyPermissions)
    (allowErr denyErr : Bool) : Bool × List RCall :=
  let allow := (ensurePlan desired current).1
  let deny := (ensurePlan desired current).2
  if hasAnyBucketKeyPerm allow then
    if allowErr then (true, [RCall.lookup b, RCall.allowCall b k allow])
    else if hasAnyBucketKeyPerm deny then
      (denyErr, [RCall.lookup b, RCall.allowCall b k allow, RCall.denyCall b k deny])
    else (false, [RCall.lookup b, RCall.allowCall b k allow])
  else if hasAnyBucketKeyPerm deny then
    (denyErr, [RCall.lookup b, RCall.denyCall b k deny])
  else (false, [RCall.lookup b])

/-- ensureBucketKeyPermissions (resource_bucket_key.go, lines 202-245). -/
def ensureBucketKeyPermissions (b k : Str) (desired : bucketKeyPermissions)
    (env : KeyEnv) : Bool × List RCall :=
  let f := fetchBucketKeyState k env.lookupResp
  if f.diags then (true, [RCall.lookup b])
  else ensureCalls b k desired f.perms env.allowResp.isErr env.denyResp.isErr

/-- What resourceBucketKeyRead leaves behind: diagnostics, whether the id
was cleared (binding vanished remotely), and the refreshed fields. -/
structure KeyReadOut where
  diags : Bool
  idCleared : Bool
  perms : Option bucketKeyPermissions
  keyName : Option Str
deriving DecidableEq

/-- resourceBucketKeyRead (lines 107-131). -/
def resourceBucketKeyRead (b k : Str) (resp : ExecResp) : KeyReadOut × List RCall :=
  let f := fetchBucketKeyState k resp
  if f.diags then (⟨true, false, none, none⟩, [RCall.lookup b])
  else if !f.found then (⟨false, true, none, none⟩, [RCall.lookup b])
  else (⟨false, false, some f.perms, some f.keyName⟩, [RCall.lookup b])

/-- Remote responses for a full create/update run (reconciliation plus the
trailing read-back). -/
structure KeyEnvFull where
  ensureEnv : KeyEnv
  readResp : ExecResp
deriving DecidableEq

/-- resourceBucketKeyCreate (lines 85-105): reject an all-false desired set
before anything else; otherwise reconcile, then read back.
Returns (error present, trace of issued remote calls). -/
def resourceBucketKeyCreate (b k : Str) (desired : bucketKeyPermissions)
    (env : KeyEnvFull) : Bool × List RCall :=
  if !desired.any then (true, [])
  else
    let r := ensureBucketKeyPermissions b k desired env.ensureEnv
    if r.1 then (true, r.2)
    else
      let rd := resourceBucketKeyRead b k env.readResp
      (rd.1.diags, r.2 ++ rd.2)

/-- resourceBucketKeyUpdate (lines 133-156): with no change on the three
flags, just read; otherwise reject an all-false desired set, else reconcile
and read back. -/
def resourceBucketKeyUpdate (b k : Str) (oldP newP : bucketKeyPermissions)
    (env : KeyEnvFull) : Bool × List RCall :=
  if !((oldP.read != newP.read) || (oldP.write != newP.write) || (oldP.owner != newP.owner)) then
    let rd := resourceBucketKeyRead b k env.readResp
    (rd.1.diags, rd.2)
  else if !newP.any then (true, [])
  else
    let r := ensureBucketKeyPermissions b k newP env.ensureEnv
    if r.1 then (true, r.2)
    else
      let rd := resourceBucketKeyRead b k env.readResp
      (rd.1.diags, r.2 ++ rd.2)

/-- The CustomizeDiff hook of resourceBucketKey (lines 71-81): true means
the plan is rejected because all three flags are false. -/
def bucketKeyCustomizeDiff (p : bucketKeyPermissions) : Bool := !p.any

/-- The deny set built by resourceBucketKeyDelete (lines 173-182): every
flag currently true. -/
def denyOfCurrent (cur : bucketKeyPermissions) : ApiBucketKeyPerm :=
  ⟨if cur.read then some true else newApiBucketKeyPerm.read,
   if cur.write then some true else newApiBucketKeyPerm.write,
   if cur.owner then some true else newApiBucketKeyPerm.owner⟩

/-- resourceBucketKeyDelete (lines 158-192). -/
def resourceBucketKeyDelete (b k : Str) (lookupResp : ExecResp)
    (denyResp : MutResp) : Bool × List RCall :=
  let f := fetchBucketKeyState k lookupResp
  if f.diags then (true, [RCall.lookup b])
  else if !f.found then (false, [RCall.lookup b])
  else
    let deny := denyOfCurrent f.perms
    if hasAnyBucketKeyPerm deny then
      (denyResp.isErr, [RCall.lookup b, RCall.denyCall b k deny])
    else (false, [RCall.lookup b])

/-- Modelled from the spec: the mutation gateway's allowBucketKey call
(spec section 6) grants each flag mentioned in the request, so the remote
binding after the allow call holds a flag iff it held it before or the
allow request set it.  The gateway itself is not part of this repository. -/
def applyAllowToState (cur : bucketKeyPermissions) (p : ApiBucketKeyPerm) :
    bucketKeyPermissions :=
  ⟨cur.owner || p.owner.getD false,
   cur.read || p.read.getD false,
   cur.write || p.write.getD false⟩

/-- Trace helpers: does a trace contain an allow mutation call. -/
def traceHasAllow (tr : List RCall) : Bool :=
  tr.any fun a => match a with
  | RCall.allowCall _ _ _ => true
  | _ => false

/-- Does a trace contain a deny mutation call. -/
def traceHasDeny (tr : List RCall) : Bool :=
  tr.any fun a => match a with
  | RCall.denyCall _ _ _ => true
  | _ => false

/-- The permission sets of the allow calls of a trace, in order. -/
def allowCallsIn (tr : List RCall) : List ApiBucketKeyPerm :=
  tr.filterMap fun a => match a with
  | RCall.allowCall _ _ q => some q
  | _ => none

/-- The permission sets of the deny calls of a trace, in order. -/
def denyCallsIn (tr : List RCall) : List ApiBucketKeyPerm :=
  tr.filterMap fun a => match a with
  | RCall.denyCall _ _ q => some q
  | _ => none

/-- The key list of a response body, empty when absent. -/
def keysOf (resp : ExecResp) : List KeyEntry :=
  match resp.info with
  | none => []
  | some i => i.keys

/-! ### Alias identity resolver (resource_bucket_alias.go) -/

/-- The literal "global:" of the serialized identifier. -/
def gTag : Str := 'g' :: 'l' :: 'o' :: 'b' :: 'a' :: 'l' :: ':' :: []

/-- The literal "local:" of the serialized identifier. -/
def lTag : Str := 'l' :: 'o' :: 'c' :: 'a' :: 'l' :: ':' :: []

/-- The kind string "global". -/
def kindGlobal : Str := 'g' :: 'l' :: 'o' :: 'b' :: 'a' :: 'l' :: []

/-- The kind string "local". -/
def kindLocal : Str := 'l' :: 'o' :: 'c' :: 'a' :: 'l' :: []

/-- The aliasName resource's data: the Terraform id plus the schema fields
bucket_id, kind, global_alias, local_alias, access_key_id. -/
structure AliasState where
  id : Str
  bucketId : Str
  kind : Str
  globalAlias : Str
  localAlias : Str
  accessKeyId : Str
deriving DecidableEq

/-- Go strings.TrimPrefix: drop p when it is a leading part of s, else s. -/
def goTrimPre (p s : Str) : Str :=
  if p.isPrefixOf s then s.drop p.length else s

/-- Go strings.SplitN(s, ":", 2): the part before the first colon, and,
when a colon exists, the part after it (none when s has no colon, in which
case SplitN returned a single part). -/
def splitOnceColon : Str → Str × Option Str
| [] => ([], none)
| c :: cs =>
  if c = ':' then ([], some cs)
  else
    let r := splitOnceColon cs
    (c :: r.1, r.2)

/-- The state-fallback tail of parseAliasID (lines 290-294): a non-empty
configured global_alias wins (d.GetOk reports ok only for a non-zero
value, so the guard amounts to non-emptiness), else the configured
local_alias and access_key_id. -/
def parseAliasFallback (st : AliasState) : Str × Str × Str :=
  if st.globalAlias ≠ [] then (kindGlobal, st.globalAlias, [])
  else (kindLocal, st.localAlias, st.accessKeyId)

/-- parseAliasID (resource_bucket_alias.go, lines 279-295): extracts
(kind, aliasName, keyID) from the Terraform id, with state fallback both when
no tag matches and when a "local:" id lacks its second colon. -/
def parseAliasID (id : Str) (st : AliasState) : Str × Str × Str :=
  if gTag.isPrefixOf id then (kindGlobal, goTrimPre gTag id, [])
  else if lTag.isPrefixOf id then
    match splitOnceColon (goTrimPre lTag id) with
    | (keyPart, some aliasPart) => (kindLocal, aliasPart, keyPart)
    | (_, none) => parseAliasFallback st
  else parseAliasFallback st

/-- The id stored by the global branch of create: fmt.Sprintf("global:%s", global). -/
def serializeGlobalAliasID (aliasName : Str) : Str := gTag ++ aliasName

/-- The id stored by the local branch of create:
fmt.Sprintf("local:%s:%s", keyID, local). -/
def serializeLocalAliasID (key aliasName : Str) : Str := lTag ++ key ++ ':' :: aliasName

/-- The field and getter base names probed by keyHasLocalAlias
(resource_bucket_alias.go, lines 343-345). -/
def aliasProbeNames : List Str :=
  ["LocalAliases".toList, "Aliases".toList, "LocalAlias".toList,
   "LocalAliasesList".toList, "LocalAliasesMap".toList]

/-- The fields of the SDK struct GetBucketInfoKey, as the repository's own
tests construct it (bucketInfoPayload / aliasBucketInfoPayload key-list
literals): AccessKeyId, BucketLocalAliases, Name, Permissions. -/
def getBucketInfoKeyFieldNames : List Str :=
  ["AccessKeyId".toList, "BucketLocalAliases".toList,
   "Name".toList, "Permissions".toList]

/-- keyMatchesAccessKeyID (resource_bucket_alias.go, lines 298-329): the
reflection probes field names AccessKeyId, AccessKeyID, Id, ID (then
getter fallbacks); AccessKeyId is a field of GetBucketInfoKey, so the
first probe hits and the check is equality on that field. -/
def keyMatchesAccessKeyID (k : KeyEntry) (want : Str) : Bool :=
  k.accessKeyId = want

/-- keyHasLocalAlias (resource_bucket_alias.go, lines 333-398): for each
name in aliasProbeNames the reflection looks for a field of that name on
the key entry (then a Get-prefixed getter) and scans it for the alias.
GetBucketInfoKey's alias list lives in the field BucketLocalAliases,
which is not among the probed names (and no probed getter name exists on
the struct either), so every probe misses and the helper falls through to
its final return false.  The guarded branch records what a probe hit
would have checked: membership in the alias list the entry carries. -/
def keyHasLocalAlias (k : KeyEntry) (aliasName : Str) : Bool :=
  if aliasProbeNames.any fun n => decide (n ∈ getBucketInfoKeyFieldNames) then
    decide (aliasName ∈ k.bucketLocalAliases)
  else false

/-- The local-mode search loop of resourceBucketAliasRead (lines 203-212):
skip entries whose access-key id does not match; on a match, stop if
keyHasLocalAlias reports the alias, else keep scanning. -/
def localAliasSearch (keyID aliasName : Str) : List KeyEntry → Bool
| [] => false
| k :: ks =>
  if keyMatchesAccessKeyID k keyID then
    if keyHasLocalAlias k aliasName then true
    else localAliasSearch keyID aliasName ks
  else localAliasSearch keyID aliasName ks

/-- The zero bucket info the SDK's nil-safe getters present for a nil body. -/
def emptyBucketInfo : BucketInfo := ⟨[], []⟩

/-- resourceBucketAliasRead (lines 161-227): parse the id (with state
fallback), fetch bucket info once, then verify the aliasName is still present;
a 404 clears the id without error, any other fetch failure is surfaced.
Returns (new state, error present). -/
def resourceBucketAliasRead (st : AliasState) (resp : ExecResp) : AliasState × Bool :=
  let pr := parseAliasID st.id st
  let kind := pr.1
  let aliasName := pr.2.1
  let keyID := pr.2.2
  if resp.isErr then
    if resp.status = some 404 then ({st with id := []}, false) else (st, true)
  else
    let info := resp.info.getD emptyBucketInfo
    if kind = kindGlobal then
      if aliasName ∈ info.globalAliases then
        ({st with kind := kindGlobal, globalAlias := aliasName}, false)
      else ({st with id := []}, false)
    else if kind = kindLocal then
      if keyID = [] ∨ aliasName = [] then ({st with id := []}, false)
      else if localAliasSearch keyID aliasName info.keys then
        ({st with kind := kindLocal, localAlias := aliasName, accessKeyId := keyID}, false)
      else ({st with id := []}, false)
    else ({st with id := []}, false)

/-- The CustomizeDiff hook of resourceBucketAlias (lines 88-99): true means
the plan is rejected.  hasGlobal is global_alias non-empty; hasLocal is
local_alias or access_key_id non-empty; neither or both is an error. -/
def aliasCustomizeDiff (st : AliasState) : Bool :=
  let hasGlobal := !st.globalAlias.isEmpty
  let hasLocal := !st.localAlias.isEmpty || !st.accessKeyId.isEmpty
  (!hasGlobal && !hasLocal) || (hasGlobal && hasLocal)

/-- resourceBucketAliasCreate (lines 105-157): a non-empty global_alias
issues a global add call and stores global:<aliasName>; else a non-empty
local_alias with a non-empty access_key_id issues a local add call and
stores local:<key>:<aliasName>; else a validation error with no call.  On
success the trailing read refreshes state.  Returns ((new state, error
present), trace of issued remote calls). -/
def resourceBucketAliasCreate (st : AliasState) (addResp : MutResp)
    (readResp : ExecResp) : (AliasState × Bool) × List RCall :=
  if st.globalAlias ≠ [] then
    let t := [RCall.addAlias st.globalAlias [] [] st.bucketId]
    if addResp.isErr then ((st, true), t)
    else
      let st1 := {st with id := serializeGlobalAliasID st.globalAlias, kind := kindGlobal}
      let r := resourceBucketAliasRead st1 readResp
      ((r.1, r.2), t ++ [RCall.lookup st.bucketId])
  else if st.localAlias ≠ [] ∧ st.accessKeyId ≠ [] then
    let t := [RCall.addAlias [] st.accessKeyId st.localAlias st.bucketId]
    if addResp.isErr then ((st, true), t)
    else
      let st1 := {st with id := serializeLocalAliasID st.accessKeyId st.localAlias,
                          kind := kindLocal}
      let r := resourceBucketAliasRead st1 readResp
      ((r.1, r.2), t ++ [RCall.lookup st.bucketId])
  else ((st, true), [])

/-- Modelled from the spec: the orchestration layer (the declarative
engine driving the resource, spec sections 4.2 and 6) runs the resource's
diff-time validation before the apply-time create; create behind a failed
validation never runs, so no remote call is issued. -/
def aliasCreateWithDiff (st : AliasState) (addResp : MutResp)
    (readResp : ExecResp) : (AliasState × Bool) × List RCall :=
  if aliasCustomizeDiff st then ((st, true), [])
  else resourceBucketAliasCreate st addResp readResp

/-- resourceBucketAliasDelete (lines 231-274): parse the id as in read and
issue the matching remove call; a 404 from the remove is success.  The Go
switch has no default case, so an unrecognized kind would fall through
with no call.  Returns (error present, trace of issued remote calls). -/
def resourceBucketAliasDelete (st : AliasState) (removeResp : MutResp) :
    Bool × List RCall :=
  let pr := parseAliasID st.id st
  if pr.1 = kindGlobal then
    (if removeResp.isErr then decide (removeResp.status ≠ some 404) else false,
     [RCall.removeAlias pr.2.1 [] [] st.bucketId])
  else if pr.1 = kindLocal then
    (if removeResp.isErr then decide (removeResp.status ≠ some 404) else false,
     [RCall.removeAlias [] pr.2.2 pr.2.1 st.bucketId])
  else (false, [])

/-- The branch selector of the switch in resourceBucketAliasRead: true
when the parsed kind matches neither case label, i.e. the default branch
would run. -/
def readAliasBranchUnknown (id : Str) (st : AliasState) : Bool :=
  !(decide ((parseAliasID id st).1 = kindGlobal) ||
    decide ((parseAliasID id st).1 = kindLocal))

/-- Formalisation of claim C3's acceptance predicate, following the
spec's words: global_alias non-empty XOR (local_alias non-empty AND
access_key_id non-empty). -/
def specAliasCreateAccepts (st : AliasState) : Bool :=
  Bool.xor (!st.globalAlias.isEmpty)
    (!st.localAlias.isEmpty && !st.accessKeyId.isEmpty)

/-- The acceptance predicate the code actually implements: exactly-global,
or exactly-local with both local fields populated. -/
def codeAliasCreateAccepts (st : AliasState) : Bool :=
  (!st.globalAlias.isEmpty && st.localAlias.isEmpty && st.accessKeyId.isEmpty) ||
  (st.globalAlias.isEmpty && !st.localAlias.isEmpty && !st.accessKeyId.isEmpty)

/-- Does a trace contain an add-aliasName mutation call. -/
def traceHasAdd (tr : List RCall) : Bool :=
  tr.any fun a => match a with
  | RCall.addAlias _ _ _ _ => true
  | _ => false

/-! ### Concrete inputs used by counterexamples and witnesses -/

/-- A concrete bucket id. -/
def b0 : Str := ['b']

/-- A concrete access-key id. -/
def k0 : Str := ['k']

/-- A successful mutation response. -/
def mrOk : MutResp := ⟨false, none⟩

/-- A successful lookup of a bucket with no keys and no aliases. -/
def respOkEmptyBucket : ExecResp := ⟨false, none, some ⟨[], []⟩⟩

/-- A successful lookup whose body is missing. -/
def respNoBody : ExecResp := ⟨false, none, none⟩

/-- A failed lookup with a 404 response. -/
def resp404 : ExecResp := ⟨true, some 404, none⟩

/-- A failed lookup with a 500 response. -/
def resp500 : ExecResp := ⟨true, some 500, none⟩

/-- Permission set with only read. -/
def permsReadOnly : bucketKeyPermissions := ⟨false, true, false⟩

/-- Permission set with only write. -/
def permsWriteOnly : bucketKeyPermissions := ⟨false, false, true⟩

/-- A lookup response binding k0 to write-only permissions. -/
def respWriteKey : ExecResp := ⟨false, none, some ⟨[], [⟨k0, [], [], permsWriteOnly⟩]⟩⟩

/-- A lookup response binding k0 to an all-false permission entry. -/
def respZeroKey : ExecResp := ⟨false, none, some ⟨[], [⟨k0, [], [], permsZero⟩]⟩⟩

/-- Reconciliation environment: empty bucket, successful mutations. -/
def envW1 : KeyEnv := ⟨respOkEmptyBucket, mrOk, mrOk⟩

/-- Reconciliation environment: k0 holds write-only, successful mutations. -/
def envW2 : KeyEnv := ⟨respWriteKey, mrOk, mrOk⟩

/-- Full environment for create/update runs. -/
def envFullW : KeyEnvFull := ⟨envW1, respOkEmptyBucket⟩

/-- Alias state with every field empty except the bucket id. -/
def stAllEmpty : AliasState := ⟨[], b0, [], [], [], []⟩

/-- Alias config setting global_alias together with access_key_id:
the input separating claim C3 from the code. -/
def stC3X : AliasState := ⟨[], b0, [], ['g'], [], ['k']⟩

/-- Alias state holding the malformed id "local:x" while the configured
local pair names an alias that is live remotely. -/
def stC4X : AliasState := ⟨lTag ++ ['x'], b0, [], [], ['a'], ['k']⟩

/-- A lookup response where key k carries local alias a in its
BucketLocalAliases list. -/
def respC4X : ExecResp := ⟨false, none, some ⟨[], [⟨['k'], [], [['a']], permsZero⟩]⟩⟩

/-- Alias state holding the malformed id "local:x" while the configured
global_alias is "g": the input separating claim C4 from the code. -/
def stC4G : AliasState := ⟨lTag ++ ['x'], b0, [], ['g'], [], []⟩

/-- A lookup response where the bucket carries global alias g. -/
def respC4G : ExecResp := ⟨false, none, some ⟨[['g']], []⟩⟩

/-- The directory body for the C9 exhibit: key k whose BucketLocalAliases
list carries alias a. -/
def infoC9L : BucketInfo := ⟨[], [⟨['k'], [], [['a']], permsZero⟩]⟩

/-- Alias state bound to the local alias a of key k. -/
def stC9L : AliasState := ⟨serializeLocalAliasID ['k'] ['a'], b0, [], [], ['a'], ['k']⟩

/-- A successful lookup returning infoC9L. -/
def respC9L : ExecResp := ⟨false, none, some infoC9L⟩

/-! ### Lemmas and claim theorems -/

lemma ensurePlanChar (desired current : bucketKeyPermissions) :
    (((ensurePlan desired current).1.read = some true)
        ↔ (desired.read = true ∧ current.read = false))
    ∧ (((ensurePlan desired current).1.write = some true)
        ↔ (desired.write = true ∧ current.write = false))
    ∧ (((ensurePlan desired current).1.owner = some true)
        ↔ (desired.owner = true ∧ current.owner = false))
    ∧ (((ensurePlan desired current).2.read = some true)
        ↔ (desired.read = false ∧ current.read = true))
    ∧ (((ensurePlan desired current).2.write = some true)
        ↔ (desired.write = false ∧ current.write = true))
    ∧ (((ensurePlan desired current).2.owner = some true)
        ↔ (desired.owner = false ∧ current.owner = true))
    ∧ (desired.read = current.read →
        (ensurePlan desired current).1.read = none
        ∧ (ensurePlan desired current).2.read = none)
    ∧ (desired.write = current.write →
        (ensurePlan desired current).1.write = none
        ∧ (ensurePlan desired current).2.write = none)
    ∧ (desired.owner = current.owner →
        (ensurePlan desired current).1.owner = none
        ∧ (ensurePlan desired current).2.owner = none) := by
  rcases desired with ⟨a, b, c⟩
  rcases current with ⟨d, e, f⟩
  cases a <;> cases b <;> cases c <;> cases d <;> cases e <;> cases f <;> decide

lemma ensureCallsHasAllow (b k : Str) (desired current : bucketKeyPermissions)
    (denyErr : Bool) :
    traceHasAllow (ensureCalls b k desired current false denyErr).2
      = hasAnyBucketKeyPerm (ensurePlan desired current).1 := by
  cases h1 : hasAnyBucketKeyPerm (ensurePlan desired current).1 <;>
  cases h2 : hasAnyBucketKeyPerm (ensurePlan desired current).2 <;>
  simp [ensureCalls, traceHasAllow, h1, h2]

lemma ensureCallsHasDeny (b k : Str) (desired current : bucketKeyPermissions)
    (denyErr : Bool) :
    traceHasDeny (ensureCalls b k desired current false denyErr).2
      = hasAnyBucketKeyPerm (ensurePlan desired current).2 := by
  cases h1 : hasAnyBucketKeyPerm (ensurePlan desired current).1 <;>
  cases h2 : hasAnyBucketKeyPerm (ensurePlan desired current).2 <;>
  simp [ensureCalls, traceHasDeny, h1, h2]

lemma ensureCallsAllowPerms (b k : Str) (desired current : bucketKeyPermissions)
    (denyErr : Bool) :
    allowCallsIn (ensureCalls b k desired current false denyErr).2
      = (if hasAnyBucketKeyPerm (ensurePlan desired current).1 = true
          then [(ensurePlan desired current).1] else []) := by
  cases h1 : hasAnyBucketKeyPerm (ensurePlan desired current).1 <;>
  cases h2 : hasAnyBucketKeyPerm (ensurePlan desired current).2 <;>
  simp [ensureCalls, allowCallsIn, h1, h2]

lemma ensureCallsDenyPerms (b k : Str) (desired current : bucketKeyPermissions)
    (denyErr : Bool) :
    denyCallsIn (ensureCalls b k desired current false denyErr).2
      = (if hasAnyBucketKeyPerm (ensurePlan desired current).2 = true
          then [(ensurePlan desired current).2] else []) := by
  cases h1 : hasAnyBucketKeyPerm (ensurePlan desired current).1 <;>
  cases h2 : hasAnyBucketKeyPerm (ensurePlan desired current).2 <;>
  simp [ensureCalls, denyCallsIn, h1, h2]

lemma allowKeepsAny (desired current : bucketKeyPermissions) :
    desired.any = true →
    (applyAllowToState current (ensurePlan desired current).1).any = true := by
  rcases desired with ⟨a, b, c⟩
  rcases current with ⟨d, e, f⟩
  cases a <;> cases b <;> cases c <;> cases d <;> cases e <;> cases f <;> decide

/-- C1: with the directory lookup succeeding with permission set current
and the allow call succeeding, reconciliation puts a flag in the allow set
iff it is desired and not current, in the deny set iff it is current and
not desired, issues the allow call iff the allow set is non-empty, the
deny call iff the deny set is non-empty, and no issued call mentions an
unchanged flag. -/
theorem claimC1Thm (b k : Str) (desired current : bucketKeyPermissions) (env : KeyEnv)
    (hf : (fetchBucketKeyState k env.lookupResp).diags = false)
    (hc : (fetchBucketKeyState k env.lookupResp).perms = current)
    (ha : env.allowResp.isErr = false) :
    ensureBucketKeyPermissions b k desired env
      = ensureCalls b k desired current false env.denyResp.isErr
    ∧ ((((ensurePlan desired current).1.read = some true)
          ↔ (desired.read = true ∧ current.read = false))
       ∧ (((ensurePlan desired current).1.write = some true)
          ↔ (desired.write = true ∧ current.write = false))
       ∧ (((ensurePlan desired current).1.owner = some true)
          ↔ (desired.owner = true ∧ current.owner = false))
       ∧ (((ensurePlan desired current).2.read = some true)
          ↔ (desired.read = false ∧ current.read = true))
       ∧ (((ensurePlan desired current).2.write = some true)
          ↔ (desired.write = false ∧ current.write = true))
       ∧ (((ensurePlan desired current).2.owner = some true)
          ↔ (desired.owner = false ∧ current.owner = true))
       ∧ (desired.read = current.read →
          (ensurePlan desired current).1.read = none
          ∧ (ensurePlan desired current).2.read = none)
       ∧ (desired.write = current.write →
          (ensurePlan desired current).1.write = none
          ∧ (ensurePlan desired current).2.write = none)
       ∧ (desired.owner = current.owner →
          (ensurePlan desired current).1.owner = none
          ∧ (ensurePlan desired current).2.owner = none))
    ∧ traceHasAllow (ensureCalls b k desired current false env.denyResp.isErr).2
        = hasAnyBucketKeyPerm (ensurePlan desired current).1
    ∧ traceHasDeny (ensureCalls b k desired current false env.denyResp.isErr).2
        = hasAnyBucketKeyPerm (ensurePlan desired current).2
    ∧ allowCallsIn (ensureCalls b k desired current false env.denyResp.isErr).2
        = (if hasAnyBucketKeyPerm (ensurePlan desired current).1 = true
            then [(ensurePlan desired current).1] else [])
    ∧ denyCallsIn (ensureCalls b k desired current false env.denyResp.isErr).2
        = (if hasAnyBucketKeyPerm (ensurePlan desired current).2 = true
            then [(ensurePlan desired current).2] else []) := by
  refine ⟨?_, ensurePlanChar desired current,
    ensureCallsHasAllow b k desired current env.denyResp.isErr,
    ensureCallsHasDeny b k desired current env.denyResp.isErr,
    ensureCallsAllowPerms b k desired current env.denyResp.isErr,
    ensureCallsDenyPerms b k desired current env.denyResp.isErr⟩
  simp [ensureBucketKeyPermissions, hf, hc, ha]

/-- C1 witness: a concrete run against an empty bucket with desired
read-only. -/
theorem claimC1Witness :
    ensureBucketKeyPermissions b0 k0 permsReadOnly envW1
      = ensureCalls b0 k0 permsReadOnly permsZero false false :=
  (claimC1Thm b0 k0 permsReadOnly permsZero envW1
    (by decide) (by decide) (by decide)).1

/-- C2: with the lookup and the allow call succeeding, whenever both the
allow and deny sets are non-empty the trace is lookup, then the allow
call, then the deny call — allow strictly precedes deny; and if desired
has at least one true flag, the binding state between the two calls
(current with the allow set applied) has at least one true flag. -/
theorem claimC2Thm (b k : Str) (desired current : bucketKeyPermissions) (env : KeyEnv)
    (hf : (fetchBucketKeyState k env.lookupResp).diags = false)
    (hc : (fetchBucketKeyState k env.lookupResp).perms = current)
    (ha : env.allowResp.isErr = false) :
    (hasAnyBucketKeyPerm (ensurePlan desired current).1 = true →
     hasAnyBucketKeyPerm (ensurePlan desired current).2 = true →
     (ensureBucketKeyPermissions b k desired env).2
       = [RCall.lookup b, RCall.allowCall b k (ensurePlan desired current).1,
          RCall.denyCall b k (ensurePlan desired current).2])
    ∧ (desired.any = true →
       (applyAllowToState current (ensurePlan desired current).1).any = true) := by
  constructor
  · intro h1 h2
    simp [ensureBucketKeyPermissions, hf, hc, ha, ensureCalls, h1, h2]
  · exact allowKeepsAny desired current

/-- C2 witness: flipping a write-only binding to read-only issues
lookup, allow(read), deny(write) in that order. -/
theorem claimC2Witness :
    (ensureBucketKeyPermissions b0 k0 permsReadOnly envW2).2
      = [RCall.lookup b0,
         RCall.allowCall b0 k0 (ensurePlan permsReadOnly permsWriteOnly).1,
         RCall.denyCall b0 k0 (ensurePlan permsReadOnly permsWriteOnly).2] :=
  (claimC2Thm b0 k0 permsReadOnly permsWriteOnly envW2
    (by decide) (by decide) (by decide)).1 (by decide) (by decide)

/-- C7: an all-false desired permission set is rejected by create with no
remote call at all, is rejected by update with no remote call whenever the
prior persisted state satisfies the resource invariant of at least one
true flag (so the change test fires), and is rejected by the resource's
diff-time validation hook. -/
theorem claimC7Thm (b k : Str) (oldP desired : bucketKeyPermissions)
    (env : KeyEnvFull) (h : desired.any = false) :
    resourceBucketKeyCreate b k desired env = (true, [])
    ∧ (oldP.any = true → resourceBucketKeyUpdate b k oldP desired env = (true, []))
    ∧ bucketKeyCustomizeDiff desired = true := by
  have hz : desired = permsZero := by
    rcases desired with ⟨a, b2, c⟩
    cases a <;> cases b2 <;> cases c <;> simp_all [bucketKeyPermissions.any, permsZero]
  subst hz
  refine ⟨?_, ?_, ?_⟩
  · simp [resourceBucketKeyCreate, bucketKeyPermissions.any, permsZero]
  · intro ho
    rcases oldP with ⟨a, b2, c⟩
    cases a <;> cases b2 <;> cases c <;>
      simp_all [resourceBucketKeyUpdate, bucketKeyPermissions.any, permsZero]
  · simp [bucketKeyCustomizeDiff, bucketKeyPermissions.any, permsZero]

/-- C7 witness: the all-false set is rejected by a concrete create and by
a concrete update from a read-only prior state, each with an empty trace. -/
theorem claimC7Witness :
    resourceBucketKeyCreate b0 k0 permsZero envFullW = (true, [])
    ∧ resourceBucketKeyUpdate b0 k0 permsReadOnly permsZero envFullW = (true, []) :=
  ⟨(claimC7Thm b0 k0 permsReadOnly permsZero envFullW (by decide)).1,
   (claimC7Thm b0 k0 permsReadOnly permsZero envFullW (by decide)).2.1 (by decide)⟩

lemma scanKeysNoneIff (k : Str) (ks : List KeyEntry) :
    scanKeys k ks = none ↔ ∀ e ∈ ks, e.accessKeyId ≠ k := by
  induction ks with
  | nil => simp [scanKeys]
  | cons x xs ih => by_cases h : x.accessKeyId = k <;> simp [scanKeys, h, ih]

lemma scanKeysSome (k : Str) (ks : List KeyEntry) (e : KeyEntry)
    (h : scanKeys k ks = some e) : e ∈ ks ∧ e.accessKeyId = k := by
  induction ks with
  | nil => simp [scanKeys] at h
  | cons x xs ih =>
    by_cases hx : x.accessKeyId = k
    · simp [scanKeys, hx] at h
      subst h
      exact ⟨List.mem_cons_self _ _, hx⟩
    · simp [scanKeys, hx] at h
      exact ⟨List.mem_cons_of_mem _ (ih h).1, (ih h).2⟩

/-- C5: assuming a successful Execute carries a body (the HTTP client
contract), fetchBucketKeyState reports found=false with no error exactly
when the lookup answered 404 or the bucket exists and no key entry's
access-key id equals keyID; in that case the permission set is the zero
set; every other lookup failure surfaces as a diagnostic; and when a
matching entry exists the result carries the first matching entry's
flags and name. -/
theorem claimC5Thm (k : Str) (resp : ExecResp)
    (hwf : resp.isErr = false → resp.info.isSome = true) :
    ((fetchBucketKeyState k resp).found = false
        ∧ (fetchBucketKeyState k resp).diags = false
      ↔ (resp.isErr = true ∧ resp.status = some 404)
        ∨ (resp.isErr = false ∧ ∀ e ∈ keysOf resp, e.accessKeyId ≠ k))
    ∧ ((fetchBucketKeyState k resp).found = false
        ∧ (fetchBucketKeyState k resp).diags = false
        → (fetchBucketKeyState k resp).perms = permsZero)
    ∧ (resp.isErr = true → resp.status ≠ some 404
        → (fetchBucketKeyState k resp).diags = true)
    ∧ (∀ e, resp.isErr = false → scanKeys k (keysOf resp) = some e
        → fetchBucketKeyState k resp = ⟨e.perms, e.name, true, false⟩)
    ∧ (resp.isErr = false → ¬(∀ e ∈ keysOf resp, e.accessKeyId ≠ k)
        → (fetchBucketKeyState k resp).found = true) := by
  obtain ⟨ie, stt, inf⟩ := resp
  cases ie
  · cases inf with
    | none => exact absurd (hwf rfl) (by simp)
    | some i =>
      cases hsc : scanKeys k i.keys with
      | none =>
        have hnone := (scanKeysNoneIff k i.keys).1 hsc
        refine ⟨?_, ?_, ?_, ?_, ?_⟩
        · simp [fetchBucketKeyState, keysOf, hsc]
          exact hnone
        · simp [fetchBucketKeyState, keysOf, hsc]
        · simp
        · intro e _ he
          simp [keysOf] at he
          simp [he] at hsc
        · intro _ hall
          exact absurd (by simpa [keysOf] using hnone) hall
      | some e =>
        have hm := scanKeysSome k i.keys e hsc
        refine ⟨?_, ?_, ?_, ?_, ?_⟩
        · simp [fetchBucketKeyState, keysOf, hsc]
          exact ⟨e, hm.1, hm.2⟩
        · simp [fetchBucketKeyState, hsc]
        · simp
        · intro x _ hx
          simp [keysOf] at hx
          rw [hsc] at hx
          cases hx
          simp [fetchBucketKeyState, hsc]
        · intro _ _
          simp [fetchBucketKeyState, hsc]
  · by_cases h4 : stt = some 404 <;>
      simp [fetchBucketKeyState, h4]

/-- C5 witness: a non-404 lookup failure is surfaced as a diagnostic. -/
theorem claimC5Witness :
    (fetchBucketKeyState k0 resp500).diags = true :=
  (claimC5Thm k0 resp500 (by decide)).2.2.1 (by decide) (by decide)

lemma fetchFoundNoDiags (k : Str) (resp : ExecResp) :
    (fetchBucketKeyState k resp).found = true
    → (fetchBucketKeyState k resp).diags = false := by
  obtain ⟨ie, stt, inf⟩ := resp
  cases ie
  · cases inf with
    | none => simp [fetchBucketKeyState]
    | some i => cases hsc : scanKeys k i.keys <;> simp [fetchBucketKeyState, hsc]
  · by_cases h4 : stt = some 404 <;> simp [fetchBucketKeyState, h4]

lemma hasAnyDenyOfCurrent (c : bucketKeyPermissions) :
    hasAnyBucketKeyPerm (denyOfCurrent c) = c.any := by
  rcases c with ⟨a, b, c2⟩
  cases a <;> cases b <;> cases c2 <;> decide

lemma denyOfCurrentMentions (c : bucketKeyPermissions) :
    (((denyOfCurrent c).read = some true) ↔ c.read = true)
    ∧ (((denyOfCurrent c).write = some true) ↔ c.write = true)
    ∧ (((denyOfCurrent c).owner = some true) ↔ c.owner = true) := by
  rcases c with ⟨a, b, c2⟩
  cases a <;> cases b <;> cases c2 <;> decide

/-- C6 counterexample: against a directory whose key entry for k0 exists
with all-false permissions, delete finds the binding yet issues no deny
call at all, refuting "if found, it issues exactly one deny mutation
call". -/
theorem claimC6Counter :
    (fetchBucketKeyState k0 respZeroKey).found = true
    ∧ resourceBucketKeyDelete b0 k0 respZeroKey mrOk = (false, [RCall.lookup b0])
    ∧ traceHasDeny (resourceBucketKeyDelete b0 k0 respZeroKey mrOk).2 = false := by
  decide

/-- C6 (amended): delete fetches current state; not-found succeeds with no
mutation call; found with at least one true flag issues exactly one deny
call carrying precisely the currently-true flags and no allow call; found
with no true flag succeeds with no mutation call. -/
theorem claimC6Thm (b k : Str) (lr : ExecResp) (dr : MutResp) :
    ((fetchBucketKeyState k lr).diags = false
      → (fetchBucketKeyState k lr).found = false
      → resourceBucketKeyDelete b k lr dr = (false, [RCall.lookup b]))
    ∧ ((fetchBucketKeyState k lr).found = true
      → (fetchBucketKeyState k lr).perms.any = true
      → (resourceBucketKeyDelete b k lr dr).2
          = [RCall.lookup b,
             RCall.denyCall b k (denyOfCurrent (fetchBucketKeyState k lr).perms)]
        ∧ (((denyOfCurrent (fetchBucketKeyState k lr).perms).read = some true)
            ↔ (fetchBucketKeyState k lr).perms.read = true)
        ∧ (((denyOfCurrent (fetchBucketKeyState k lr).perms).write = some true)
            ↔ (fetchBucketKeyState k lr).perms.write = true)
        ∧ (((denyOfCurrent (fetchBucketKeyState k lr).perms).owner = some true)
            ↔ (fetchBucketKeyState k lr).perms.owner = true)
        ∧ traceHasAllow (resourceBucketKeyDelete b k lr dr).2 = false)
    ∧ ((fetchBucketKeyState k lr).found = true
      → (fetchBucketKeyState k lr).perms.any = false
      → resourceBucketKeyDelete b k lr dr = (false, [RCall.lookup b])) := by
  have hfd := fetchFoundNoDiags k lr
  refine ⟨?_, ?_, ?_⟩
  · intro hd hf
    simp [resourceBucketKeyDelete, hd, hf]
  · intro hf hany
    have hd : (fetchBucketKeyState k lr).diags = false := hfd hf
    have hdeny : hasAnyBucketKeyPerm (denyOfCurrent (fetchBucketKeyState k lr).perms)
        = true := by
      rw [hasAnyDenyOfCurrent]
      exact hany
    refine ⟨?_, (denyOfCurrentMentions _).1, (denyOfCurrentMentions _).2.1,
      (denyOfCurrentMentions _).2.2, ?_⟩
    · simp [resourceBucketKeyDelete, hd, hf, hdeny]
    · simp [resourceBucketKeyDelete, hd, hf, hdeny, traceHasAllow]
  · intro hf hany
    have hd : (fetchBucketKeyState k lr).diags = false := hfd hf
    have hdeny : hasAnyBucketKeyPerm (denyOfCurrent (fetchBucketKeyState k lr).perms)
        = false := by
      rw [hasAnyDenyOfCurrent]
      exact hany
    simp [resourceBucketKeyDelete, hd, hf, hdeny]

/-- C6 witness: deleting a write-only binding issues exactly the one deny
call carrying write. -/
theorem claimC6Witness :
    (resourceBucketKeyDelete b0 k0 respWriteKey mrOk).2
      = [RCall.lookup b0,
         RCall.denyCall b0 k0 (denyOfCurrent (fetchBucketKeyState k0 respWriteKey).perms)] :=
  ((claimC6Thm b0 k0 respWriteKey mrOk).2.1 (by decide) (by decide)).1

lemma isPrefixOfAppendSelf (p s : Str) : p.isPrefixOf (p ++ s) = true := by
  simp

lemma notGTagPrefixOfLTagAppend (t : Str) : ¬ (gTag <+: lTag ++ t) := by
  rintro ⟨u, hu⟩
  have h0 := congrArg (fun l => l.head?) hu
  simp only [gTag, lTag, List.cons_append, List.head?_cons, Option.some.injEq] at h0
  exact absurd h0 (by decide)

lemma notGTagOfLTag (id : Str) (h : lTag.isPrefixOf id = true) :
    gTag.isPrefixOf id = false := by
  have h2 : lTag <+: id := by simpa using h
  obtain ⟨t, rfl⟩ := h2
  rw [← Bool.not_eq_true]
  simpa using notGTagPrefixOfLTagAppend t

lemma goTrimPreAppend (p s : Str) : goTrimPre p (p ++ s) = s := by
  simp [goTrimPre, isPrefixOfAppendSelf, List.drop_left]

lemma splitOnceColonAppend (k a : Str) (hk : ∀ c ∈ k, c ≠ ':') :
    splitOnceColon (k ++ ':' :: a) = (k, some a) := by
  induction k with
  | nil => simp [splitOnceColon]
  | cons c cs ih =>
    have hc : c ≠ ':' := hk c (List.mem_cons_self _ _)
    have ihh := ih fun x hx => hk x (List.mem_cons_of_mem _ hx)
    simp [splitOnceColon, hc, ihh]

lemma parseSerializedGlobal (a : Str) (st : AliasState) :
    parseAliasID (serializeGlobalAliasID a) st = (kindGlobal, a, []) := by
  simp [parseAliasID, serializeGlobalAliasID, isPrefixOfAppendSelf, goTrimPreAppend]

lemma parseSerializedLocal (ky a : Str) (st : AliasState) (hk : ∀ c ∈ ky, c ≠ ':') :
    parseAliasID (serializeLocalAliasID ky a) st = (kindLocal, a, ky) := by
  have hng := notGTagPrefixOfLTagAppend (ky ++ ':' :: a)
  simp [parseAliasID, serializeLocalAliasID, hng, goTrimPreAppend,
        splitOnceColonAppend ky a hk]

lemma kindLocalNeGlobal : kindLocal ≠ kindGlobal := by decide

/-- C8: parsing round-trips the serialized identifiers the create
operation stores, for colon-free alias and key strings. -/
theorem claimC8Thm (a ky : Str) (st : AliasState)
    (_ha : ∀ c ∈ a, c ≠ ':') (hk : ∀ c ∈ ky, c ≠ ':') :
    parseAliasID (serializeGlobalAliasID a) st = (kindGlobal, a, [])
    ∧ parseAliasID (serializeLocalAliasID ky a) st = (kindLocal, a, ky) :=
  ⟨parseSerializedGlobal a st, parseSerializedLocal ky a st hk⟩

/-- C8 witness: the round-trip at alias "a" and key "k". -/
theorem claimC8Witness :
    parseAliasID (serializeGlobalAliasID ['a']) stAllEmpty = (kindGlobal, ['a'], [])
    ∧ parseAliasID (serializeLocalAliasID ['k'] ['a']) stAllEmpty
        = (kindLocal, ['a'], ['k']) :=
  claimC8Thm ['a'] ['k'] stAllEmpty (by decide) (by decide)

/-- C10: parseAliasID always yields kind "global" or kind "local" (so the
unknown-kind default branch of the read switch never runs), and an
identifier matching neither the "global:" form nor the well-formed
"local:key:alias" form resolves to the state fallback: the configured
global alias when non-empty, else the configured local alias and key. -/
theorem claimC10Thm (id : Str) (st : AliasState) :
    ((parseAliasID id st).1 = kindGlobal ∨ (parseAliasID id st).1 = kindLocal)
    ∧ readAliasBranchUnknown id st = false
    ∧ (gTag.isPrefixOf id = false →
        (lTag.isPrefixOf id = true → (splitOnceColon (goTrimPre lTag id)).2 = none) →
        parseAliasID id st = parseAliasFallback st)
    ∧ (st.globalAlias ≠ [] → parseAliasFallback st = (kindGlobal, st.globalAlias, []))
    ∧ (st.globalAlias = [] →
        parseAliasFallback st = (kindLocal, st.localAlias, st.accessKeyId)) := by
  have hkind : (parseAliasID id st).1 = kindGlobal ∨ (parseAliasID id st).1 = kindLocal := by
    by_cases hg : gTag.isPrefixOf id = true
    · left
      simp [parseAliasID, hg]
    · by_cases hl : lTag.isPrefixOf id = true
      · rcases hsp : splitOnceColon (goTrimPre lTag id) with ⟨p1, p2⟩
        cases p2 with
        | none =>
          by_cases hga : st.globalAlias = []
          · right
            simp [parseAliasID, hg, hl, hsp, parseAliasFallback, hga]
          · left
            simp [parseAliasID, hg, hl, hsp, parseAliasFallback, hga]
        | some a2 =>
          right
          simp [parseAliasID, hg, hl, hsp]
      · by_cases hga : st.globalAlias = []
        · right
          simp [parseAliasID, hg, hl, parseAliasFallback, hga]
        · left
          simp [parseAliasID, hg, hl, parseAliasFallback, hga]
  refine ⟨hkind, ?_, ?_, ?_, ?_⟩
  · rcases hkind with h | h <;> simp [readAliasBranchUnknown, h]
  · intro hg hcond
    by_cases hl : lTag.isPrefixOf id = true
    · have h2 := hcond hl
      rcases hsp : splitOnceColon (goTrimPre lTag id) with ⟨p1, p2⟩
      rw [hsp] at h2
      subst h2
      simp [parseAliasID, hg, hl, hsp]
    · simp [parseAliasID, hg, hl]
  · intro h
    simp [parseAliasFallback, h]
  · intro h
    simp [parseAliasFallback, h]

/-- C10 witness: a tagless identifier parses to one of the two kinds. -/
theorem claimC10Witness :
    (parseAliasID ['x'] stAllEmpty).1 = kindGlobal
    ∨ (parseAliasID ['x'] stAllEmpty).1 = kindLocal :=
  (claimC10Thm ['x'] stAllEmpty).1

lemma keyHasLocalAliasFalse (k : KeyEntry) (aliasName : Str) :
    keyHasLocalAlias k aliasName = false := by
  have h : (aliasProbeNames.any fun n => decide (n ∈ getBucketInfoKeyFieldNames))
      = false := by decide
  simp [keyHasLocalAlias, h]

lemma localAliasSearchFalse (keyID aliasName : Str) (ks : List KeyEntry) :
    localAliasSearch keyID aliasName ks = false := by
  induction ks with
  | nil => rfl
  | cons k ks ih => simp [localAliasSearch, keyHasLocalAliasFalse, ih]

/-- C4 counterexample: the stored id "local:x" lacks the second colon, yet
with a configured global_alias "g" that is live on the bucket, read keeps
the identifier and returns no error — the malformed id is not treated as
"not found". -/
theorem claimC4Counter :
    lTag.isPrefixOf stC4G.id = true
    ∧ (splitOnceColon (goTrimPre lTag stC4G.id)).2 = none
    ∧ (resourceBucketAliasRead stC4G respC4G).1.id = stC4G.id
    ∧ (resourceBucketAliasRead stC4G respC4G).2 = false
    ∧ stC4G.id ≠ [] := by
  decide

/-- C4 (amended): a malformed local identifier is not treated as
"not found"; parseAliasID falls back to the configured fields.  When the
configured global_alias is empty the fallback is local-kind and read
always clears the identifier without error on a successful lookup (an
empty fallback key or alias short-circuits, and otherwise the
reflection-based local presence probe never succeeds); when the
configured global_alias is non-empty the binding is treated as a global
binding over it, and read keeps the identifier when that alias is live. -/
theorem claimC4Thm (st : AliasState) (resp : ExecResp)
    (h1 : lTag.isPrefixOf st.id = true)
    (h2 : (splitOnceColon (goTrimPre lTag st.id)).2 = none) :
    parseAliasID st.id st = parseAliasFallback st
    ∧ (st.globalAlias = [] → resp.isErr = false →
       resourceBucketAliasRead st resp = ({st with id := []}, false))
    ∧ (st.globalAlias ≠ [] → resp.isErr = false →
       ∀ info, resp.info = some info → st.globalAlias ∈ info.globalAliases →
       resourceBucketAliasRead st resp
         = ({st with kind := kindGlobal, globalAlias := st.globalAlias}, false)) := by
  have hg := notGTagOfLTag st.id h1
  have hpar : parseAliasID st.id st = parseAliasFallback st := by
    rcases hsp : splitOnceColon (goTrimPre lTag st.id) with ⟨p1, p2⟩
    rw [hsp] at h2
    subst h2
    simp [parseAliasID, hg, h1, hsp]
  refine ⟨hpar, ?_, ?_⟩
  · intro hga hie
    have hfb : parseAliasFallback st = (kindLocal, st.localAlias, st.accessKeyId) := by
      simp [parseAliasFallback, hga]
    by_cases hemp : st.accessKeyId = [] ∨ st.localAlias = []
    · rcases hemp with h | h
      · simp [resourceBucketAliasRead, hpar, hfb, hie, h, kindLocalNeGlobal]
      · simp [resourceBucketAliasRead, hpar, hfb, hie, h, kindLocalNeGlobal]
    · push_neg at hemp
      simp [resourceBucketAliasRead, hpar, hfb, hie, hemp.1, hemp.2,
            localAliasSearchFalse, kindLocalNeGlobal]
  · intro hga hie info hinfo hmem
    have hfb : parseAliasFallback st = (kindGlobal, st.globalAlias, []) := by
      simp [parseAliasFallback, hga]
    simp [resourceBucketAliasRead, hpar, hfb, hie, hinfo, hmem]

/-- C4 witness: even with the configured local pair ("a","k") and that
alias live in the key entry's BucketLocalAliases list, read clears the
malformed identifier without error. -/
theorem claimC4Witness :
    resourceBucketAliasRead stC4X respC4X = ({stC4X with id := []}, false) :=
  (claimC4Thm stC4X respC4X (by decide) (by decide)).2.1 rfl rfl

/-- C3 counterexample: global_alias="g" together with access_key_id="k"
satisfies the claim's XOR predicate (global non-empty, local pair not
fully populated), yet the code's diff-time validation rejects it before
any remote call. -/
theorem claimC3Counter :
    specAliasCreateAccepts stC3X = true
    ∧ aliasCreateWithDiff stC3X mrOk respNoBody = ((stC3X, true), [])
    ∧ traceHasAdd (aliasCreateWithDiff stC3X mrOk respNoBody).2 = false := by
  decide

/-- C3 (amended): create validation accepts exactly the configurations
with global_alias non-empty and both local fields empty, or global_alias
empty and both local fields non-empty; an add-alias call is issued iff
the configuration is accepted, and every rejected configuration gets a
validation error with no remote call. -/
theorem claimC3Thm (st : AliasState) (ar : MutResp) (rr : ExecResp) :
    traceHasAdd (aliasCreateWithDiff st ar rr).2 = codeAliasCreateAccepts st
    ∧ (codeAliasCreateAccepts st = false →
       aliasCreateWithDiff st ar rr = ((st, true), [])) := by
  by_cases hg : st.globalAlias = [] <;>
  by_cases hl : st.localAlias = [] <;>
  by_cases hk : st.accessKeyId = [] <;>
  by_cases ha : ar.isErr = true <;>
  simp [aliasCreateWithDiff, aliasCustomizeDiff, resourceBucketAliasCreate,
        codeAliasCreateAccepts, traceHasAdd, hg, hl, hk, ha]

/-- C3 witness: the all-empty configuration is rejected with no call. -/
theorem claimC3Witness :
    aliasCreateWithDiff stAllEmpty mrOk respNoBody = ((stAllEmpty, true), []) :=
  (claimC3Thm stAllEmpty mrOk respNoBody).2 (by decide)

/-- C9: exhibit of the code defect refuting the claim's local half at a
concrete failing input.  The binding is bound to local:k:a and the
directory's key entry for k carries "a" in its BucketLocalAliases list,
yet read clears the identifier without error instead of keeping it:
keyHasLocalAlias probes only field names absent from the SDK struct
GetBucketInfoKey, so it is constantly false and a live local alias is
never recognised.  (The global half of the claim does hold of the code;
compare the global-mode conjunct of claimC4Thm.) -/
theorem claimC9Thm :
    (∀ e aliasName, keyHasLocalAlias e aliasName = false)
    ∧ stC9L.id = serializeLocalAliasID ['k'] ['a']
    ∧ respC9L.isErr = false
    ∧ respC9L.info = some infoC9L
    ∧ (∃ e ∈ infoC9L.keys, e.accessKeyId = ['k'] ∧ ['a'] ∈ e.bucketLocalAliases)
    ∧ resourceBucketAliasRead stC9L respC9L = ({stC9L with id := []}, false) := by
  refine ⟨keyHasLocalAliasFalse, by decide, rfl, rfl, by decide, by decide⟩
